import Mathlib

/-!
# Verification of the proxy form controller

A shallow embedding of `src/proxy_form_controller.js`. Pure DOM field state is
modelled by the `FormState` structure, the two proxy profiles by
`ProfileConfig`, and the asynchronous platform calls (settings reads/writes,
permission query, alerts) by explicit oracles and event traces. Each function
below is a direct translation of the correspondingly named function of the
source file.
-/

namespace PFC

/-! ## JavaScript primitive semantics -/

/-- The character class matched by `\s` in a JavaScript regular expression
(ECMAScript WhiteSpace plus LineTerminator). -/
def jsWhitespace (c : Char) : Bool :=
  c.toNat == 9 || c.toNat == 10 || c.toNat == 11 || c.toNat == 12 || c.toNat == 13 ||
  c.toNat == 32 || c.toNat == 160 || c.toNat == 0x1680 ||
  (decide (0x2000 ≤ c.toNat) && decide (c.toNat ≤ 0x200A)) ||
  c.toNat == 0x2028 || c.toNat == 0x2029 ||
  c.toNat == 0x202F || c.toNat == 0x205F || c.toNat == 0x3000 || c.toNat == 0xFEFF

/-- ECMAScript LineTerminator characters, i.e. the positions after which a
multiline `^` assertion matches. -/
def isLineTerm (c : Char) : Bool :=
  c.toNat == 10 || c.toNat == 13 || c.toNat == 0x2028 || c.toNat == 0x2029

/-- Decimal digit test, `[0-9]`. -/
def isDecDigit (c : Char) : Bool :=
  decide (48 ≤ c.toNat) && decide (c.toNat ≤ 57)

/-- Numeric value of a decimal digit character. -/
def decDigitVal (c : Char) : Nat := c.toNat - 48

/-- The character for a decimal digit value. -/
def digitCharOf (d : Nat) : Char := Char.ofNat (48 + d)

/-- Value of a string of decimal digits, most significant first. -/
def parseDigitsVal (ds : List Char) : Nat :=
  ds.foldl (fun a c => 10 * a + decDigitVal c) 0

/-- JavaScript `parseInt(s, 10)`: skip leading whitespace, optional sign, then
the longest prefix of decimal digits; `none` models `NaN`. The result here is
an exact integer, whereas JS rounds the mathematical value to the nearest
double; the two agree whenever the value's magnitude is at most 2^53 - 1
(every port in the safe-integer range, see `safeIntegerPort`), and the
truthiness facts the extraction theorems use (`NaN`, zero including `-0`,
non-zero) agree for every input, since rounding never turns a non-zero
mathematical value into zero. -/
def parseInt10 (s : String) : Option Int :=
  let cs := s.data.dropWhile jsWhitespace
  match cs with
  | [] => none
  | c :: rest =>
    if c = '-' then
      let ds := rest.takeWhile isDecDigit
      if ds.isEmpty then none else some (-(parseDigitsVal ds : Int))
    else if c = '+' then
      let ds := rest.takeWhile isDecDigit
      if ds.isEmpty then none else some ((parseDigitsVal ds : Int))
    else
      let ds := (c :: rest).takeWhile isDecDigit
      if ds.isEmpty then none else some ((parseDigitsVal ds : Int))

/-- Decimal digit characters of a natural number (JavaScript `String(n)`). -/
def natToDecChars (n : Nat) : List Char :=
  if n = 0 then ['0'] else ((Nat.digits 10 n).map digitCharOf).reverse

/-- JavaScript number-to-string coercion for integer values, as happens when
a port number is assigned to a text input's `value`. JS numbers are doubles:
`String(n)` is this plain decimal form exactly for integer values of
magnitude below 1e21 that the double represents exactly; for larger
magnitudes JS switches to exponential notation (`String(1e21)` is
`'1e+21'`). The round-trip results below therefore restrict ports to the
safe-integer range (see `safeIntegerPort`), on which this definition
coincides with the program. -/
def intToDecString (i : Int) : String :=
  if i < 0 then ⟨'-' :: natToDecChars i.natAbs⟩ else ⟨natToDecChars i.toNat⟩

/-! ### The bypass-list split

The getter for the bypass list evaluates
`value.split(/\s*(?:,|^)\s*/m)`. We embed the ECMAScript
`RegExp.prototype[Symbol.split]` algorithm specialised to this pattern:
a match at a position consumes a greedy whitespace run, then either a comma
or a multiline `^` assertion, then another greedy whitespace run. -/

/-- Length of the maximal run of `\s` characters at the head of a list. -/
def wsRunAux : List Char → Nat
  | [] => 0
  | c :: cs => if jsWhitespace c then wsRunAux cs + 1 else 0

/-- Length of the maximal run of `\s` characters of `s` starting at `q`. -/
def wsRun (s : List Char) (q : Nat) : Nat := wsRunAux (s.drop q)

/-- Attempt the `(?:,|^)\s*` part of the separator at position `pos`
(the leading `\s*` having already consumed up to `pos`); returns the end
position of the whole match. The comma alternative is tried first. -/
def tryBody (s : List Char) (pos : Nat) : Option Nat :=
  if s[pos]? = some ',' then some (pos + 1 + wsRun s (pos + 1))
  else if pos = 0 ∨ (match s[pos - 1]? with | some c => isLineTerm c | none => false) = true then
    some (pos + wsRun s pos)
  else none

/-- Backtracking search over the number `k` of characters consumed by the
leading greedy `\s*`, largest first. -/
def matchAtAux (s : List Char) (q : Nat) : Nat → Option Nat
  | 0 => tryBody s q
  | k + 1 =>
    match tryBody s (q + (k + 1)) with
    | some e => some e
    | none => matchAtAux s q k

/-- Match of the separator regex starting exactly at position `q`; returns
the end position on success. -/
def matchAt (s : List Char) (q : Nat) : Option Nat :=
  matchAtAux s q (wsRun s q)

/-- The main loop of the ECMAScript split algorithm: `p` is the end of the
previous separator match, `q` the scan position. -/
def splitLoop (s : List Char) : Nat → Nat → Nat → List (List Char)
  | _, _, 0 => []
  | p, q, fuel + 1 =>
    if s.length ≤ q then [s.drop p]
    else
      match matchAt s q with
      | none => splitLoop s p (q + 1) fuel
      | some e =>
        if e = p then splitLoop s p (q + 1) fuel
        else ((s.drop p).take (q - p)) :: splitLoop s e e fuel

/-- `String.prototype.split` with the bypass-list separator regex, on
character lists. The empty string yields `[]` because the separator matches
the empty string. -/
def jsSplitChars (s : List Char) : List (List Char) :=
  if s.length = 0 then (if (matchAt s 0).isSome then [] else [s])
  else splitLoop s 0 0 (2 * s.length + 3)

/-- `value.split(/\s*(?:,|^)\s*/m)` on strings. -/
def jsSplitBypass (s : String) : List String :=
  (jsSplitChars s.data).map fun l => ⟨l⟩

/-- `data.join(', ')`, the serialisation used by the bypass-list setter. -/
def joinToks : List (List Char) → List Char
  | [] => []
  | [t] => t
  | t :: ts => t ++ ',' :: ' ' :: joinToks ts

/-- Bypass-list join on strings. -/
def joinBypass (l : List String) : String := ⟨joinToks (l.map String.data)⟩

/-! ## Data model -/

/-- The four fieldset group ids of the form (`ProxyTypes` values that name a
fieldset; `auto_detect` shares the `pac_script` group). -/
inductive GroupId
  | system
  | direct
  | pac_script
  | fixed_servers
deriving DecidableEq, Repr

/-- `ProxyFormController.ProxyTypes`, the `mode` values of a proxy config. -/
inductive Mode
  | system
  | direct
  | auto_detect
  | pac_script
  | fixed_servers
deriving DecidableEq, Repr

/-- The fieldset element looked up by `document.getElementById(c.mode)`;
there is no `auto_detect` fieldset. -/
def groupOfMode : Mode → Option GroupId
  | .system => some .system
  | .direct => some .direct
  | .auto_detect => none
  | .pac_script => some .pac_script
  | .fixed_servers => some .fixed_servers

/-- A `{scheme, host, port}` proxy server record. -/
structure ProxyServer where
  scheme : String
  host : String
  port : Int
deriving DecidableEq, Repr

/-- The `pacScript` member of a proxy config. -/
structure PacScript where
  url : Option String
  data : Option String
  mandatory : Option Bool
deriving DecidableEq, Repr

/-- The `rules` member of a `fixed_servers` proxy config. -/
structure Rules where
  singleProxy : Option ProxyServer
  proxyForHttp : Option ProxyServer
  proxyForHttps : Option ProxyServer
  proxyForFtp : Option ProxyServer
  fallbackProxy : Option ProxyServer
  bypassList : Option (List String)
deriving DecidableEq, Repr

/-- A chrome `ProxyConfig` value. -/
structure ProxyConfig where
  mode : Mode
  pacScript : Option PacScript
  rules : Option Rules
deriving DecidableEq, Repr

/-- One profile's model: `{proxy: ..., restrictRtc: ...}` as in
`regularConfig_` / `incognitoConfig_`; both members start out `null`. -/
structure ProfileConfig where
  proxy : Option ProxyConfig
  restrictRtc : Option String
deriving DecidableEq, Repr

/-- The proxy-server field triples are indexed by the type suffix used in
the element ids (`proxySchemeHttp` etc.). -/
inductive ProxyKind
  | Http
  | Https
  | Ftp
  | Fallback
deriving DecidableEq, Repr

/-- The value-carrying DOM state of the form read and written by the
controller: text field values, checkbox states, which fieldset currently has
the `active` class, and the `single` marker class. -/
structure FormState where
  autoconfigURL : String
  autoconfigData : String
  bypassField : String
  singleProxyChecked : Bool
  restrictRtcChecked : Bool
  schemeField : ProxyKind → String
  hostField : ProxyKind → String
  portField : ProxyKind → String
  activeGroup : Option GroupId
  singleClass : Bool

/-- A form with every text field empty, both checkboxes clear and no active
group. -/
def emptyFormState : FormState where
  autoconfigURL := ""
  autoconfigData := ""
  bypassField := ""
  singleProxyChecked := false
  restrictRtcChecked := false
  schemeField := fun _ => ""
  hostField := fun _ => ""
  portField := fun _ => ""
  activeGroup := none
  singleClass := false

/-! ## Field accessors -/

/-- `getProxyImpl_`: reads a `{scheme, host, port}` triple; the record is
returned only if scheme and host are non-empty strings and the parsed port is
a truthy number (not `NaN`, not `0`). -/
def getProxyImpl (fs : FormState) (k : ProxyKind) : Option ProxyServer :=
  let scheme := fs.schemeField k
  let host := fs.hostField k
  match parseInt10 (fs.portField k) with
  | none => none
  | some p => if scheme ≠ "" ∧ host ≠ "" ∧ p ≠ 0 then some ⟨scheme, host, p⟩ else none

/-- `setProxyImpl_`: writes a triple's three fields; a missing record writes
`{scheme: 'http', host: '', port: ''}`. -/
def setProxyImpl (fs : FormState) (k : ProxyKind) (data : Option ProxyServer) : FormState :=
  match data with
  | none =>
    { fs with
      schemeField := Function.update fs.schemeField k "http"
      hostField := Function.update fs.hostField k ""
      portField := Function.update fs.portField k "" }
  | some p =>
    { fs with
      schemeField := Function.update fs.schemeField k p.scheme
      hostField := Function.update fs.hostField k p.host
      portField := Function.update fs.portField k (intToDecString p.port) }

/-- The `singleProxy` getter: the Http triple when the
`singleProxyForEverything` checkbox is checked, else `null`. -/
def singleProxyGet (fs : FormState) : Option ProxyServer :=
  if fs.singleProxyChecked then getProxyImpl fs .Http else none

/-- The `singleProxy` setter: checks/unchecks the checkbox, writes the Http
triple when a record is given, and toggles the `single` marker class. -/
def singleProxySet (fs : FormState) (data : Option ProxyServer) : FormState :=
  let fs := { fs with singleProxyChecked := data.isSome }
  let fs :=
    match data with
    | some p => setProxyImpl fs .Http (some p)
    | none => fs
  { fs with singleClass := fs.singleProxyChecked }

/-- `RestrictRtcTypes.RESTRICT`. -/
def restrictValue : String := "disable_non_proxied_udp"

/-- `RestrictRtcTypes.DEFAULT`. -/
def defaultValue : String := "default"

/-- The `restrictRtc` getter. -/
def restrictRtcGet (fs : FormState) : String :=
  if fs.restrictRtcChecked then restrictValue else defaultValue

/-- The `restrictRtc` setter. -/
def restrictRtcSet (fs : FormState) (data : String) : FormState :=
  { fs with restrictRtcChecked := data = restrictValue }

/-- The `bypassList` getter. -/
def bypassListGet (fs : FormState) : List String := jsSplitBypass fs.bypassField

/-- The `bypassList` setter; a falsy argument is replaced by the empty list. -/
def bypassListSet (fs : FormState) (data : Option (List String)) : FormState :=
  { fs with bypassField := joinBypass (data.getD []) }

/-! ## Reconciler: extract and render -/

/-- `generateProxyConfig_`: builds a `ProxyConfig` from the currently active
group's fields. `none` models the TypeError thrown when no element has the
`active` class. -/
def generateProxyConfig (fs : FormState) : Option ProxyConfig :=
  match fs.activeGroup with
  | none => none
  | some .system => some ⟨.system, none, none⟩
  | some .direct => some ⟨.direct, none, none⟩
  | some .pac_script =>
    let pacScriptURL := fs.autoconfigURL
    let pacManual := fs.autoconfigData
    if pacScriptURL ≠ "" then
      some ⟨.pac_script, some ⟨some pacScriptURL, none, some true⟩, none⟩
    else if pacManual ≠ "" then
      some ⟨.pac_script, some ⟨none, some pacManual, some true⟩, none⟩
    else
      some ⟨.auto_detect, none, none⟩
  | some .fixed_servers =>
    match singleProxyGet fs with
    | some sp =>
      some ⟨.fixed_servers, none,
        some ⟨some sp, none, none, none, none, some (bypassListGet fs)⟩⟩
    | none =>
      some ⟨.fixed_servers, none,
        some ⟨none, getProxyImpl fs .Http, getProxyImpl fs .Https,
          getProxyImpl fs .Ftp, getProxyImpl fs .Fallback, some (bypassListGet fs)⟩⟩

/-- `recalcFormValues_`: renders a profile model into the form. Returns the
updated form together with the profile model, because the source mutates the
passed config in place when it normalises `auto_detect` to `pac_script`.
When either member of the profile is missing it logs and returns with
nothing changed. -/
def recalcFormValues (cfg : ProfileConfig) (fs : FormState) : FormState × ProfileConfig :=
  match cfg.proxy, cfg.restrictRtc with
  | some c0, some restrictRtc =>
    let c := if c0.mode = .auto_detect then { c0 with mode := .pac_script } else c0
    let fs := { fs with activeGroup := groupOfMode c.mode }
    let fs :=
      match c.pacScript with
      | some ps =>
        match ps.url with
        | some u => if u ≠ "" then { fs with autoconfigURL := u } else fs
        | none => fs
      | none => { fs with autoconfigURL := "" }
    let fs :=
      match c.rules with
      | some rules =>
        let fs :=
          match rules.singleProxy with
          | some sp => singleProxySet fs (some sp)
          | none =>
            let fs := singleProxySet fs none
            let fs := setProxyImpl fs .Http rules.proxyForHttp
            let fs := setProxyImpl fs .Https rules.proxyForHttps
            let fs := setProxyImpl fs .Ftp rules.proxyForFtp
            setProxyImpl fs .Fallback rules.fallbackProxy
        bypassListSet fs rules.bypassList
      | none =>
        let fs := singleProxySet fs none
        let fs := setProxyImpl fs .Http none
        let fs := setProxyImpl fs .Https none
        let fs := setProxyImpl fs .Ftp none
        let fs := setProxyImpl fs .Fallback none
        bypassListSet fs none
    let fs := restrictRtcSet fs restrictRtc
    (fs, { cfg with proxy := some c })
  | _, _ => (fs, cfg)

/-- The model produced when the visible fields are extracted into a profile:
`config.proxy = generateProxyConfig_(); config.restrictRtc = restrictRtc`. -/
def extractProfile (fs : FormState) : ProfileConfig :=
  ⟨generateProxyConfig fs, some (restrictRtcGet fs)⟩

/-! ## Group activation (`changeActive_` / `recalcDisabledInputs_`) -/

/-- The kinds of controls matched by the selectors in
`recalcDisabledInputs_`: radio inputs are excluded from the
enable/disable pass, every other input plus selects and textareas are
included. -/
inductive InputKind
  | radio
  | checkbox
  | text
  | select
  | textarea
deriving DecidableEq, Repr

/-- One form control inside a fieldset group. -/
structure FormInput where
  kind : InputKind
  disabled : Bool
  checked : Bool
deriving DecidableEq, Repr

/-- One `form > fieldset` configuration group. -/
structure Fieldset where
  active : Bool
  inputs : List FormInput
deriving DecidableEq, Repr

/-- `el.querySelector("input[type='radio']").checked = true`: checks the
first radio control; `none` models the TypeError when the group has none. -/
def setFirstRadioChecked : List FormInput → Option (List FormInput)
  | [] => none
  | i :: rest =>
    if i.kind = .radio then some ({ i with checked := true } :: rest)
    else (setFirstRadioChecked rest).map (i :: ·)

/-- `recalcDisabledInputs_`: enables every non-radio control of the active
groups and disables every non-radio control of the inactive groups. -/
def recalcDisabledInputs (gs : List Fieldset) : List Fieldset :=
  gs.map fun g =>
    { g with
      inputs := g.inputs.map fun i =>
        if i.kind = .radio then i
        else if g.active then { i with disabled := false }
        else { i with disabled := true } }

/-- The loop of `changeActive_` over `configGroups_`, comparing each group's
index against the target's. -/
def changeActiveAux : List Fieldset → Nat → Nat → Option (List Fieldset)
  | [], _, _ => some []
  | g :: rest, i, tgt =>
    if i = tgt then
      match setFirstRadioChecked g.inputs with
      | none => none
      | some ins =>
        (changeActiveAux rest (i + 1) tgt).map ({ g with active := true, inputs := ins } :: ·)
    else
      (changeActiveAux rest (i + 1) tgt).map ({ g with active := false } :: ·)

/-- `changeActive_` invoked on the group at index `tgt`. -/
def changeActive (gs : List Fieldset) (tgt : Nat) : Option (List Fieldset) :=
  (changeActiveAux gs 0 tgt).map recalcDisabledInputs

/-! ## Controller state and event traces -/

/-- The scopes used by `applyChanges_`. -/
inductive Scope
  | regular_only
  | incognito_persistent
deriving DecidableEq, Repr

/-- The two platform settings each scope carries. -/
inductive SettingKind
  | proxySettings
  | webRTCPolicy
deriving DecidableEq, Repr

/-- Externally observable actions of the controller. -/
inductive Event
  | clearErrorMsg
  | readSetting (what : String)
  | settingWrite (scope : Scope) (kind : SettingKind)
  | alert (msg : String)
  | windowClose
  | jsException
deriving DecidableEq, Repr

/-- The controller's mutable state: the form, the `incognito` class on the
form's parent (the active-profile indicator), the two profile models, the
cached incognito permission, and the profile-switch button/header texts. -/
structure CtrlState where
  form : FormState
  incognitoModeOn : Bool
  regularConfig : ProfileConfig
  incognitoConfig : ProfileConfig
  isAllowedIncognitoAccess : Bool
  buttonText : String
  headerText : String

/-- The platform oracle for `applyChanges_`: the outcome of each settings
write, and the localisation table `chrome.i18n.getMessage`. -/
structure ApplyEnv where
  writeOk : Scope → SettingKind → Bool
  i18n : String → String

/-- `applyChanges_`: extract the fields into the active profile, clear the
error badge, write the regular pair, and only if that fully succeeds and the
incognito profile has a proxy value, write the incognito pair; each failure
alerts and returns. `jsException` models the TypeError thrown by
`generateProxyConfig_` when no group is active. -/
def applyChanges (env : ApplyEnv) (st : CtrlState) : CtrlState × List Event :=
  match generateProxyConfig st.form with
  | none => (st, [Event.jsException])
  | some cfg =>
    let st :=
      if st.incognitoModeOn then
        { st with incognitoConfig := ⟨some cfg, some (restrictRtcGet st.form)⟩ }
      else
        { st with regularConfig := ⟨some cfg, some (restrictRtcGet st.form)⟩ }
    let evs := [Event.clearErrorMsg, Event.settingWrite .regular_only .proxySettings]
    if env.writeOk .regular_only .proxySettings = false then
      (st, evs ++ [Event.alert (env.i18n "errorSettingRegularProxy")])
    else
      let evs := evs ++ [Event.settingWrite .regular_only .webRTCPolicy]
      if env.writeOk .regular_only .webRTCPolicy = false then
        (st, evs ++ [Event.alert (env.i18n "errorSettingRegularProxy")])
      else
        match st.incognitoConfig.proxy with
        | none => (st, evs ++ [Event.windowClose])
        | some _ =>
          let evs := evs ++ [Event.settingWrite .incognito_persistent .proxySettings]
          if env.writeOk .incognito_persistent .proxySettings = false then
            (st, evs ++ [Event.alert (env.i18n "errorSettingIncognitoProxy")])
          else
            let evs := evs ++ [Event.settingWrite .incognito_persistent .webRTCPolicy]
            if env.writeOk .incognito_persistent .webRTCPolicy = false then
              (st, evs ++ [Event.alert (env.i18n "errorSettingIncognitoProxy")])
            else
              (st, evs ++ [Event.windowClose])

/-- The alert text of `toggleIncognitoMode_` when incognito access is not
allowed. -/
def incognitoDeniedMsg : String :=
  "I'm sorry, Dave, I'm afraid I can't do that. " ++
  "Please right-click my icon, select 'Manage extension', " ++
  "and enable 'Allow in Incognito' to use this feature."

/-- `toggleIncognitoMode_`: with no incognito access, alert and return; else
extract the fields into the profile being left, flip the `incognito` class
and render the other profile. -/
def toggleIncognitoMode (st : CtrlState) : CtrlState × List Event :=
  if st.isAllowedIncognitoAccess = false then
    (st, [Event.alert incognitoDeniedMsg])
  else if st.incognitoModeOn then
    match generateProxyConfig st.form with
    | none => (st, [Event.jsException])
    | some cfg =>
      let st := { st with incognitoConfig := ⟨some cfg, some (restrictRtcGet st.form)⟩ }
      let st := { st with incognitoModeOn := false }
      let (fs, rc) := recalcFormValues st.regularConfig st.form
      ({ st with
          form := fs
          regularConfig := rc
          buttonText := "Configure incognito window settings."
          headerText := "Proxy Configuration (regular)" }, [])
  else
    match generateProxyConfig st.form with
    | none => (st, [Event.jsException])
    | some cfg =>
      let st := { st with regularConfig := ⟨some cfg, some (restrictRtcGet st.form)⟩ }
      let st := { st with incognitoModeOn := true }
      let (fs, ic) := recalcFormValues st.incognitoConfig st.form
      ({ st with
          form := fs
          incognitoConfig := ic
          buttonText := "Configure regular window settings."
          headerText := "Proxy Configuration (incognito)" }, [])

/-! ## Loading the current state (`readCurrentState_` / `accessOk_`) -/

/-- The result object of a `chrome.proxy.settings.get` call. -/
structure ProxySettingGet where
  value : ProxyConfig
  levelOfControl : String

/-- The result object of a `webRTCIPHandlingPolicy.get` call. -/
structure RtcSettingGet where
  value : String
  levelOfControl : String

/-- The platform oracle for `readCurrentState_`. -/
structure ReadEnv where
  isAllowedIncognitoAccess : Bool
  regularProxy : ProxySettingGet
  regularPrivacy : RtcSettingGet
  incognitoProxy : ProxySettingGet
  incognitoPrivacy : RtcSettingGet

/-- `accessOk_`: accepts a read whose level of control is
`controllable_by_this_extension` or `controlled_by_this_extension`; any
other status appends a named error and rejects. -/
def accessOkM (loc : String) (errs : List String) (what : String) : Bool × List String :=
  if loc = "controllable_by_this_extension" ∨ loc = "controlled_by_this_extension" then
    (true, errs)
  else
    (false, errs ++ [what ++ ": " ++ loc])

/-- `readCurrentState_`: query the incognito permission, read the regular
pair, read the incognito pair only when permitted, render the active
profile, and raise one aggregated alert when any read was rejected. -/
def readCurrentState (env : ReadEnv) (st : CtrlState) : CtrlState × List Event :=
  let st := { st with isAllowedIncognitoAccess := env.isAllowedIncognitoAccess }
  let errs : List String := ["Failed to read state:"]
  let evs : List Event := [Event.readSetting "regular/proxy"]
  let (ok, errs) := accessOkM env.regularProxy.levelOfControl errs "regular/proxy"
  let st :=
    if ok then { st with regularConfig := { st.regularConfig with proxy := some env.regularProxy.value } }
    else st
  let evs := evs ++ [Event.readSetting "regular/privacy"]
  let (ok, errs) := accessOkM env.regularPrivacy.levelOfControl errs "regular/privacy"
  let st :=
    if ok then { st with regularConfig := { st.regularConfig with restrictRtc := some env.regularPrivacy.value } }
    else st
  let (st, evs, errs) :=
    if st.isAllowedIncognitoAccess then
      let evs := evs ++ [Event.readSetting "incognito/proxy"]
      let (ok, errs) := accessOkM env.incognitoProxy.levelOfControl errs "incognito/proxy"
      let st :=
        if ok then { st with incognitoConfig := { st.incognitoConfig with proxy := some env.incognitoProxy.value } }
        else st
      let evs := evs ++ [Event.readSetting "incognito/privacy"]
      let (ok, errs) := accessOkM env.incognitoPrivacy.levelOfControl errs "incognito/privacy"
      let st :=
        if ok then { st with incognitoConfig := { st.incognitoConfig with restrictRtc := some env.incognitoPrivacy.value } }
        else st
      (st, evs, errs)
    else (st, evs, errs)
  let st :=
    if st.incognitoModeOn then
      let (fs, ic) := recalcFormValues st.incognitoConfig st.form
      { st with form := fs, incognitoConfig := ic }
    else
      let (fs, rc) := recalcFormValues st.regularConfig st.form
      { st with form := fs, regularConfig := rc }
  if errs.length > 1 then
    (st, evs ++ [Event.alert (String.intercalate "\r\n" errs)])
  else
    (st, evs)

/-- `accessOk_`'s acceptance condition by itself. -/
def accessOk (loc : String) : Bool :=
  loc = "controllable_by_this_extension" ∨ loc = "controlled_by_this_extension"

/-- The list of access-error descriptions `readCurrentState_` accumulates,
in read order, for a given platform oracle. -/
def loadErrs (env : ReadEnv) : List String :=
  (if accessOk env.regularProxy.levelOfControl then []
   else ["regular/proxy: " ++ env.regularProxy.levelOfControl]) ++
  (if accessOk env.regularPrivacy.levelOfControl then []
   else ["regular/privacy: " ++ env.regularPrivacy.levelOfControl]) ++
  (if env.isAllowedIncognitoAccess then
    (if accessOk env.incognitoProxy.levelOfControl then []
     else ["incognito/proxy: " ++ env.incognitoProxy.levelOfControl]) ++
    (if accessOk env.incognitoPrivacy.levelOfControl then []
     else ["incognito/privacy: " ++ env.incognitoPrivacy.levelOfControl])
   else [])

/-- The read events of `readCurrentState_`, in order. -/
def readEvts (env : ReadEnv) : List Event :=
  [Event.readSetting "regular/proxy", Event.readSetting "regular/privacy"] ++
  (if env.isAllowedIncognitoAccess then
    [Event.readSetting "incognito/proxy", Event.readSetting "incognito/privacy"]
   else [])

/-- Whether an event is an alert. -/
def isAlertEvt : Event → Bool
  | .alert _ => true
  | _ => false

/-! ## Constructor validation -/

/-- A DOM element as far as the constructor's checks observe it. -/
structure DomElement where
  nodeName : String
deriving DecidableEq, Repr

/-- JavaScript `!x` applied to `el?.nodeName`: true iff the element is
missing or its node name is the empty string. -/
def jsNotOptStr : Option String → Bool
  | none => true
  | some s => s = ""

/-- JavaScript `ToNumber` on a string, for the string forms that occur here:
a whitespace-only string is `0`, an optionally signed decimal integer
numeral its value, anything else (such as `'H1'` or `'FORM'`) `NaN`,
modelled as `none`. -/
def jsStrToNumber (s : String) : Option Int :=
  let cs := (s.data.dropWhile jsWhitespace).reverse.dropWhile jsWhitespace |>.reverse
  match cs with
  | [] => some 0
  | c :: rest =>
    let body := if c = '-' ∨ c = '+' then rest else c :: rest
    if body ≠ [] ∧ body.all isDecDigit then
      some (if c = '-' then -(parseDigitsVal body : Int) else (parseDigitsVal body : Int))
    else none

/-- JavaScript loose equality between a boolean and a string: the boolean
becomes `0` or `1`, the string becomes a number, and `NaN` equals nothing. -/
def jsLooseEqBoolStr (b : Bool) (s : String) : Bool :=
  match jsStrToNumber s with
  | none => false
  | some n => (if b then (1 : Int) else 0) = n

/-- The validation at the top of the `ProxyFormController` constructor:
`if (!this.header_?.nodeName == 'H1') throw ...` and
`if (!this.form_?.nodeName == 'FORM') throw ...`. -/
def ctorValidation (headerId formId : String) (header form : Option DomElement) :
    Except String Unit :=
  if jsLooseEqBoolStr (jsNotOptStr (header.map DomElement.nodeName)) "H1" then
    Except.error (headerId ++ " is not an H1")
  else if jsLooseEqBoolStr (jsNotOptStr (form.map DomElement.nodeName)) "FORM" then
    Except.error (formId ++ " is not a form")
  else
    Except.ok ()

/-! ## Well-formedness predicates, from the specification's data-model
section, used as hypotheses of the round-trip property -/

/-- A triple is valid when all three members are non-empty/non-zero. -/
def validServer (p : ProxyServer) : Bool :=
  decide (p.scheme ≠ "") && decide (p.host ≠ "") && decide (p.port ≠ 0)

/-- An optional triple is fully populated or absent. -/
def validServerOpt : Option ProxyServer → Bool
  | none => true
  | some p => validServer p

/-- A port in the double-exact safe-integer range: its magnitude is at most
`Number.MAX_SAFE_INTEGER` (2^53 - 1). Exactly on this range a JS number
holds the port without rounding, `String(port)` is the plain decimal form
(far below the 1e21 threshold for exponential notation) and `parseInt`
re-reads it exactly, so the embedding's integer ports coincide with the
program's double ports. -/
def safeIntegerPort (p : ProxyServer) : Bool :=
  decide (p.port.natAbs ≤ 9007199254740991)

/-- A triple that the form can render and re-extract without numeric loss:
fully populated, with its port in the safe-integer range. -/
def renderableServer (p : ProxyServer) : Bool :=
  validServer p && safeIntegerPort p

/-- Lift a per-server condition to an optional triple (absent is fine). -/
def serverOkOpt (serverOk : ProxyServer → Bool) : Option ProxyServer → Bool
  | none => true
  | some p => serverOk p

/-- A hostname pattern as the bypass list serialisation expects: non-empty,
no whitespace, no commas. -/
def plainPattern (s : String) : Bool :=
  decide (s ≠ "") && s.data.all fun c => !jsWhitespace c && decide (c ≠ ',')

/-- The claim's well-formedness for a PAC member: exactly one of a non-empty
remote url or non-empty inline data, with the mandatory flag extraction
produces. -/
def wfPacClaimed (ps : PacScript) : Bool :=
  match ps.url, ps.data with
  | some u, none => decide (u ≠ "") && decide (ps.mandatory = some true)
  | none, some d => decide (d ≠ "") && decide (ps.mandatory = some true)
  | _, _ => false

/-- The PAC member shapes that actually survive a render/extract round trip:
remote-url configurations only. -/
def wfPacRoundTrip (ps : PacScript) : Bool :=
  match ps.url, ps.data with
  | some u, none => decide (u ≠ "") && decide (ps.mandatory = some true)
  | _, _ => false

/-- Well-formed `rules` for a given per-server notion of "fully populated":
a serialisable bypass list, and either an acceptable single proxy with no
per-scheme entries, or per-scheme entries each acceptable or absent. -/
def wfRules (serverOk : ProxyServer → Bool) (r : Rules) : Bool :=
  (match r.bypassList with
   | none => false
   | some l => l.all plainPattern) &&
  (match r.singleProxy with
   | some sp =>
     serverOk sp && r.proxyForHttp.isNone && r.proxyForHttps.isNone &&
       r.proxyForFtp.isNone && r.fallbackProxy.isNone
   | none =>
     serverOkOpt serverOk r.proxyForHttp && serverOkOpt serverOk r.proxyForHttps &&
       serverOkOpt serverOk r.proxyForFtp && serverOkOpt serverOk r.fallbackProxy)

/-- Well-formed proxy config for given PAC and server well-formedness
notions. -/
def wfConfig (pacOk : PacScript → Bool) (serverOk : ProxyServer → Bool)
    (c : ProxyConfig) : Bool :=
  match c.mode with
  | .system => c.pacScript.isNone && c.rules.isNone
  | .direct => c.pacScript.isNone && c.rules.isNone
  | .auto_detect => c.pacScript.isNone && c.rules.isNone
  | .pac_script =>
    c.rules.isNone && (match c.pacScript with | some ps => pacOk ps | none => false)
  | .fixed_servers =>
    c.pacScript.isNone &&
      (match c.rules with | some r => wfRules serverOk r | none => false)

/-- Well-formed profile model: both members present, the restriction one of
the two enum values, and the proxy config well-formed. -/
def wfProfile (pacOk : PacScript → Bool) (serverOk : ProxyServer → Bool)
    (m : ProfileConfig) : Bool :=
  match m.proxy, m.restrictRtc with
  | some c, some r =>
    (decide (r = defaultValue) || decide (r = restrictValue)) && wfConfig pacOk serverOk c
  | _, _ => false

/-- Well-formedness exactly as the round-trip claim states it (PAC configs
may be url-only or inline-data-only, triples only need to be fully
populated). -/
def wellFormedClaimed : ProfileConfig → Bool := wfProfile wfPacClaimed validServer

/-- Well-formedness under which the round trip actually holds: PAC configs
are url-only, and ports stay in the double-exact safe-integer range. -/
def wellFormedRoundTrip : ProfileConfig → Bool := wfProfile wfPacRoundTrip renderableServer

/-! ## Concrete states used as witnesses and counterexamples -/

/-- A form showing the PAC group with both the url and the inline-data
fields populated. -/
def formPacBoth : FormState :=
  { emptyFormState with
    activeGroup := some .pac_script
    autoconfigURL := "http://a"
    autoconfigData := "x" }

/-- A form showing the fixed-servers group, single-proxy checked, with an
incomplete Http triple (empty host). -/
def formFixedIncomplete : FormState :=
  { emptyFormState with
    activeGroup := some .fixed_servers
    singleProxyChecked := true
    schemeField := fun _ => "http"
    portField := fun _ => "1" }

/-- A profile whose PAC config carries only inline data. -/
def pacDataProfile : ProfileConfig :=
  ⟨some ⟨.pac_script, some ⟨none, some "x", some true⟩, none⟩, some "default"⟩

/-- A profile in auto-detect mode. -/
def autoProfile : ProfileConfig :=
  ⟨some ⟨.auto_detect, none, none⟩, some "default"⟩

/-- A profile in system mode. -/
def systemProfile : ProfileConfig :=
  ⟨some ⟨.system, none, none⟩, some "default"⟩

/-- A controller state with the direct group active and incognito access
denied. -/
def stDenied : CtrlState :=
  ⟨{ emptyFormState with activeGroup := some .direct }, false,
    ⟨none, none⟩, ⟨none, none⟩, false, "", ""⟩

/-- A platform oracle whose writes all fail. -/
def envAllWritesFail : ApplyEnv := ⟨fun _ _ => false, fun k => k⟩

/-- A read oracle in which both regular reads report an unacceptable level
of control. -/
def envTwoDenied : ReadEnv :=
  ⟨false,
    ⟨⟨.system, none, none⟩, "controlled_by_other_extensions"⟩,
    ⟨"default", "not_controllable"⟩,
    ⟨⟨.system, none, none⟩, "controllable_by_this_extension"⟩,
    ⟨"default", "controllable_by_this_extension"⟩⟩

/-- Two fieldset groups, each with an enabled radio control; the second also
has a text control. -/
def gsPair : List Fieldset :=
  [⟨false, [⟨.radio, false, false⟩]⟩,
   ⟨false, [⟨.radio, false, false⟩, ⟨.text, false, false⟩]⟩]

/-- The claim's disabling property: every control of every inactive group is
disabled. -/
def allInactiveFieldsDisabled (gs : List Fieldset) : Bool :=
  gs.all fun g => g.active || g.inputs.all (·.disabled)

/-- The disabling property the code establishes: every non-radio control of
every inactive group is disabled. -/
def allInactiveNonRadioDisabled (gs : List Fieldset) : Bool :=
  gs.all fun g => g.active || g.inputs.all fun i => i.kind == .radio || i.disabled

/-- The number of groups carrying the `active` class. -/
def countActive (gs : List Fieldset) : Nat :=
  (gs.filter (·.active)).length

/-- The result of activating the first group of `gsPair`. -/
def gsPairActivated : List Fieldset :=
  [⟨true, [⟨.radio, false, true⟩]⟩,
   ⟨false, [⟨.radio, false, false⟩, ⟨.text, true, false⟩]⟩]

/-- The rules extracted from `formFixedIncomplete`. -/
def rulesFixedIncomplete : Rules :=
  ⟨none, none, none, none, none, some (bypassListGet formFixedIncomplete)⟩

/-- The config extracted from `formFixedIncomplete`. -/
def cfgFixedIncomplete : ProxyConfig :=
  ⟨.fixed_servers, none, some rulesFixedIncomplete⟩

/-! # Theorems -/

/-- C4: the claim says a wrong element kind makes construction throw a
structural error. In fact the check `!this.header_?.nodeName == 'H1'`
compares a boolean against the non-numeric string `'H1'` (and likewise for
`'FORM'`), which is always false under JavaScript loose equality, so the
validation never throws for any elements, including missing ones. -/
theorem c4_ctor_check_never_throws :
    (∀ (hid fid : String) (header form : Option DomElement),
      ctorValidation hid fid header form = Except.ok ()) ∧
    ctorValidation "header" "form" none none = Except.ok () :=
  ⟨fun _ _ _ _ => rfl, rfl⟩

/-- C5: with the PAC/AUTO group active, extraction yields the remote-url
config whenever the url field is non-empty (the inline data is ignored),
else the inline-data config whenever that field is non-empty, else the
auto-detect config. -/
theorem c5_pac_precedence (fs : FormState)
    (h : fs.activeGroup = some GroupId.pac_script) :
    generateProxyConfig fs =
      (if fs.autoconfigURL ≠ "" then
        some ⟨.pac_script, some ⟨some fs.autoconfigURL, none, some true⟩, none⟩
      else if fs.autoconfigData ≠ "" then
        some ⟨.pac_script, some ⟨none, some fs.autoconfigData, some true⟩, none⟩
      else
        some ⟨.auto_detect, none, none⟩) := by
  simp only [generateProxyConfig, h]

/-- C5 witness: with both fields populated the url wins and the inline data
is ignored. -/
theorem c5_pac_precedence_witness :
    formPacBoth.activeGroup = some GroupId.pac_script ∧
    generateProxyConfig formPacBoth =
      some ⟨.pac_script, some ⟨some "http://a", none, some true⟩, none⟩ :=
  ⟨rfl, (c5_pac_precedence formPacBoth rfl).trans (by decide)⟩

/-- C7: with the fixed-servers group active, the extracted rules never carry
a single proxy together with any per-scheme entry. -/
theorem c7_fixed_exclusive (fs : FormState)
    (h : fs.activeGroup = some GroupId.fixed_servers)
    (c : ProxyConfig) (r : Rules)
    (hc : generateProxyConfig fs = some c) (hr : c.rules = some r) :
    ¬(r.singleProxy.isSome = true ∧
      (r.proxyForHttp.isSome = true ∨ r.proxyForHttps.isSome = true ∨
        r.proxyForFtp.isSome = true ∨ r.fallbackProxy.isSome = true)) := by
  simp only [generateProxyConfig, h] at hc
  cases hsp : singleProxyGet fs with
  | some sp =>
    rw [hsp] at hc
    cases hc
    simp at hr
    subst hr
    simp
  | none =>
    rw [hsp] at hc
    cases hc
    simp at hr
    subst hr
    simp

/-- C7 witness: a concrete fixed-servers extraction. -/
theorem c7_fixed_exclusive_witness :
    formFixedIncomplete.activeGroup = some GroupId.fixed_servers ∧
    generateProxyConfig formFixedIncomplete = some cfgFixedIncomplete ∧
    cfgFixedIncomplete.rules = some rulesFixedIncomplete ∧
    ¬(rulesFixedIncomplete.singleProxy.isSome = true ∧
      (rulesFixedIncomplete.proxyForHttp.isSome = true ∨
        rulesFixedIncomplete.proxyForHttps.isSome = true ∨
        rulesFixedIncomplete.proxyForFtp.isSome = true ∨
        rulesFixedIncomplete.fallbackProxy.isSome = true)) :=
  ⟨rfl, by decide, rfl,
    c7_fixed_exclusive formFixedIncomplete rfl cfgFixedIncomplete rulesFixedIncomplete
      (by decide) rfl⟩

/-- C10: with the fixed-servers group active and the single-proxy checkbox
checked, an incomplete Http triple makes the `singleProxy` getter falsy, so
extraction falls through to the per-scheme branch. -/
theorem c10_incomplete_single_falls_through (fs : FormState)
    (h : fs.activeGroup = some GroupId.fixed_servers)
    (hchk : fs.singleProxyChecked = true)
    (hinc : fs.schemeField .Http = "" ∨ fs.hostField .Http = "" ∨
      parseInt10 (fs.portField .Http) = none ∨ parseInt10 (fs.portField .Http) = some 0) :
    generateProxyConfig fs =
      some ⟨.fixed_servers, none,
        some ⟨none, none, getProxyImpl fs .Https, getProxyImpl fs .Ftp,
          getProxyImpl fs .Fallback, some (bypassListGet fs)⟩⟩ := by
  have hH : getProxyImpl fs .Http = none := by
    unfold getProxyImpl
    rcases hinc with h1 | h1 | h1 | h1
    · cases hp : parseInt10 (fs.portField ProxyKind.Http) with
      | none => simp
      | some p => simp [h1]
    · cases hp : parseInt10 (fs.portField ProxyKind.Http) with
      | none => simp
      | some p => simp [h1]
    · simp [h1]
    · simp [h1]
  have hsingle : singleProxyGet fs = none := by
    simp [singleProxyGet, hchk, hH]
  simp only [generateProxyConfig, h, hsingle, hH]

/-- C10 witness: single-proxy checked with an empty Http host extracts the
per-scheme shape with no Http entry. -/
theorem c10_incomplete_single_falls_through_witness :
    formFixedIncomplete.activeGroup = some GroupId.fixed_servers ∧
    formFixedIncomplete.singleProxyChecked = true ∧
    formFixedIncomplete.hostField .Http = "" ∧
    generateProxyConfig formFixedIncomplete =
      some ⟨.fixed_servers, none,
        some ⟨none, none, getProxyImpl formFixedIncomplete .Https,
          getProxyImpl formFixedIncomplete .Ftp,
          getProxyImpl formFixedIncomplete .Fallback,
          some (bypassListGet formFixedIncomplete)⟩⟩ :=
  ⟨rfl, rfl, rfl,
    c10_incomplete_single_falls_through formFixedIncomplete rfl rfl (Or.inr (Or.inl rfl))⟩

/-- C9 counterexample: rendering a model whose mode is auto-detect mutates
the model in place, normalising the mode to pac_script, so render is not
the identity on the model as the claim states. -/
theorem c9_render_mutates_auto :
    (recalcFormValues autoProfile emptyFormState).2 ≠ autoProfile := by
  decide

/-- C9 (amended): rendering leaves the model unchanged for every model whose
proxy config is not in auto-detect mode (the only in-place mutation render
performs is the auto-detect-to-pac normalisation). -/
theorem c9_render_pure_of_not_auto (cfg : ProfileConfig) (fs : FormState)
    (h : ∀ c, cfg.proxy = some c → c.mode ≠ Mode.auto_detect) :
    (recalcFormValues cfg fs).2 = cfg := by
  obtain ⟨proxy, rtc⟩ := cfg
  cases proxy with
  | none => rfl
  | some c =>
    cases rtc with
    | none => rfl
    | some r =>
      have hc := h c rfl
      simp [recalcFormValues, if_neg hc]

/-- C9 witness: rendering a system-mode model leaves it unchanged. -/
theorem c9_render_pure_witness :
    (∀ c, systemProfile.proxy = some c → c.mode ≠ Mode.auto_detect) ∧
    (recalcFormValues systemProfile emptyFormState).2 = systemProfile :=
  ⟨fun c hc => by cases hc; decide,
    c9_render_pure_of_not_auto systemProfile emptyFormState
      (fun c hc => by cases hc; decide)⟩

/-- C3 counterexample: when incognito access is denied, the switch aborts
without extracting the fields into the regular model first, contradicting
the claim's always-performed extract: the regular model stays at its old
value instead of becoming the extraction of the current fields. -/
theorem c3_denied_does_not_extract :
    stDenied.isAllowedIncognitoAccess = false ∧
    (toggleIncognitoMode stDenied).1.regularConfig ≠ extractProfile stDenied.form := by
  decide

/-- C3 (amended): when incognito access is denied, the profile switch only
produces the permission-denied alert; the whole controller state, both
models and the active-profile indicator included, is unchanged, and no
extraction happens at all. -/
theorem c3_denied_no_mutation (st : CtrlState)
    (h : st.isAllowedIncognitoAccess = false) :
    toggleIncognitoMode st = (st, [Event.alert incognitoDeniedMsg]) := by
  simp [toggleIncognitoMode, h]

/-- C3 witness. -/
theorem c3_denied_no_mutation_witness :
    stDenied.isAllowedIncognitoAccess = false ∧
    toggleIncognitoMode stDenied = (stDenied, [Event.alert incognitoDeniedMsg]) :=
  ⟨rfl, c3_denied_no_mutation stDenied rfl⟩

/-- C1: if either write of the regular-scope pair fails, `applyChanges_`
shows the failed-to-set-regular-proxy alert, stops before completion, and
never attempts an incognito-scope write. -/
theorem c1_regular_failure_halts (env : ApplyEnv) (st : CtrlState)
    (hext : (generateProxyConfig st.form).isSome = true)
    (hfail : env.writeOk Scope.regular_only SettingKind.proxySettings = false ∨
      env.writeOk Scope.regular_only SettingKind.webRTCPolicy = false) :
    Event.alert (env.i18n "errorSettingRegularProxy") ∈ (applyChanges env st).2 ∧
    (∀ k, Event.settingWrite Scope.incognito_persistent k ∉ (applyChanges env st).2) ∧
    Event.windowClose ∉ (applyChanges env st).2 := by
  obtain ⟨cfg, hcfg⟩ := Option.isSome_iff_exists.mp hext
  rcases hfail with hf | hf
  · simp [applyChanges, hcfg, hf]
  · cases hp : env.writeOk Scope.regular_only SettingKind.proxySettings with
    | false => simp [applyChanges, hcfg, hp]
    | true => simp [applyChanges, hcfg, hp, hf]

/-- Filtering for the `active` class distributes over cons. -/
theorem countActive_cons (g : Fieldset) (l : List Fieldset) :
    countActive (g :: l) = (if g.active then 1 else 0) + countActive l := by
  simp only [countActive, List.filter_cons]
  split <;> simp [Nat.add_comm]

/-- The loop of `changeActive_` marks exactly the target index active:
one group is active iff the target index falls inside the traversed list. -/
theorem changeActiveAux_count : ∀ (gs : List Fieldset) (base tgt : Nat) (res : List Fieldset),
    changeActiveAux gs base tgt = some res →
    countActive res = if base ≤ tgt ∧ tgt < base + gs.length then 1 else 0 := by
  intro gs
  induction gs with
  | nil =>
    intro base tgt res h
    unfold changeActiveAux at h
    cases h
    simp only [countActive, List.filter_nil, List.length_nil]
    rw [if_neg (by omega)]
  | cons g rest ih =>
    intro base tgt res h
    unfold changeActiveAux at h
    by_cases hb : base = tgt
    · rw [if_pos hb] at h
      cases hr : setFirstRadioChecked g.inputs with
      | none => rw [hr] at h; cases h
      | some ins =>
        rw [hr] at h
        obtain ⟨res', hres', rfl⟩ := Option.map_eq_some'.mp h
        rw [countActive_cons, ih _ _ _ hres']
        have h1 : ¬(base + 1 ≤ tgt ∧ tgt < base + 1 + rest.length) := by omega
        rw [if_neg h1, if_pos rfl, if_pos (by simp [List.length_cons]; omega)]
    · rw [if_neg hb] at h
      obtain ⟨res', hres', rfl⟩ := Option.map_eq_some'.mp h
      rw [countActive_cons, ih _ _ _ hres']
      simp only [List.length_cons,
        show (({ g with active := false } : Fieldset)).active = false from rfl,
        Bool.false_eq_true, if_false, Nat.zero_add]
      split_ifs <;> omega

/-- `recalcDisabledInputs_` does not change which groups are active. -/
theorem countActive_recalc (gs : List Fieldset) :
    countActive (recalcDisabledInputs gs) = countActive gs := by
  induction gs with
  | nil => rfl
  | cons g rest ih =>
    simp only [recalcDisabledInputs, List.map_cons] at *
    rw [countActive_cons, countActive_cons, ih]

/-- After `recalcDisabledInputs_`, every non-radio control of every inactive
group is disabled. -/
theorem recalcDisabledInputs_disables (gs : List Fieldset) :
    allInactiveNonRadioDisabled (recalcDisabledInputs gs) = true := by
  simp only [allInactiveNonRadioDisabled, recalcDisabledInputs, List.all_eq_true,
    List.mem_map, forall_exists_index, and_imp]
  rintro g' g hg rfl
  by_cases ha : g.active
  · simp [ha]
  · simp only [ha, Bool.false_or]
    simp only [List.all_eq_true, List.mem_map, forall_exists_index, and_imp]
    rintro i' i hi rfl
    by_cases hk : i.kind = .radio <;> simp [hk, ha]

/-- C6 counterexample: activating a group does not disable the radio
controls of the inactive groups, so not every field outside the active
group reports disabled. -/
theorem c6_radio_not_disabled :
    (changeActive gsPair 0).map allInactiveFieldsDisabled = some false := by
  decide

/-- C6 (amended): after activating any of the configuration groups, exactly
one group is marked active and every non-mode-selector (non-radio) control
in every inactive group is disabled; the radio mode-selector controls are
exempt from the disabling pass. -/
theorem c6_activation_exclusive (gs : List Fieldset) (tgt : Nat) (gs' : List Fieldset)
    (h : changeActive gs tgt = some gs') (htgt : tgt < gs.length) :
    countActive gs' = 1 ∧ allInactiveNonRadioDisabled gs' = true := by
  unfold changeActive at h
  obtain ⟨res, hres, rfl⟩ := Option.map_eq_some'.mp h
  refine ⟨?_, recalcDisabledInputs_disables res⟩
  rw [countActive_recalc, changeActiveAux_count gs 0 tgt res hres]
  rw [if_pos ⟨Nat.zero_le _, by omega⟩]

/-- C6 witness: activating the first of two groups. -/
theorem c6_activation_exclusive_witness :
    changeActive gsPair 0 = some gsPairActivated ∧ 0 < gsPair.length ∧
    (countActive gsPairActivated = 1 ∧
      allInactiveNonRadioDisabled gsPairActivated = true) :=
  ⟨by decide, by decide,
    c6_activation_exclusive gsPair 0 gsPairActivated (by decide) (by decide)⟩

/-- C8: when at least two of the settings reads are rejected, the whole load
produces exactly one alert, placed after all the read events, whose message
is all the recorded error descriptions joined by line breaks. -/
theorem c8_aggregated_alert (env : ReadEnv) (st : CtrlState)
    (h : 2 ≤ (loadErrs env).length) :
    (readCurrentState env st).2 =
      readEvts env ++
        [Event.alert (String.intercalate "\r\n" ("Failed to read state:" :: loadErrs env))] ∧
    ((readCurrentState env st).2.filter isAlertEvt).length = 1 := by
  cases h1 : accessOk env.regularProxy.levelOfControl <;>
    cases h2 : accessOk env.regularPrivacy.levelOfControl <;>
      cases hA : env.isAllowedIncognitoAccess <;>
        cases h3 : accessOk env.incognitoProxy.levelOfControl <;>
          cases h4 : accessOk env.incognitoPrivacy.levelOfControl <;>
            simp_all [readCurrentState, accessOkM, accessOk, loadErrs, readEvts, isAlertEvt]

/-- C8 witness: both regular reads denied produce one aggregated alert. -/
theorem c8_aggregated_alert_witness :
    2 ≤ (loadErrs envTwoDenied).length ∧
    ((readCurrentState envTwoDenied stDenied).2 =
      readEvts envTwoDenied ++
        [Event.alert (String.intercalate "\r\n"
          ("Failed to read state:" :: loadErrs envTwoDenied))] ∧
    ((readCurrentState envTwoDenied stDenied).2.filter isAlertEvt).length = 1) :=
  ⟨by decide, c8_aggregated_alert envTwoDenied stDenied (by decide)⟩

/-- C1 witness: with every write failing, the regular-proxy error alert is
shown and no incognito write or close happens. -/
theorem c1_regular_failure_halts_witness :
    (generateProxyConfig stDenied.form).isSome = true ∧
    (envAllWritesFail.writeOk Scope.regular_only SettingKind.proxySettings = false ∨
      envAllWritesFail.writeOk Scope.regular_only SettingKind.webRTCPolicy = false) ∧
    (Event.alert (envAllWritesFail.i18n "errorSettingRegularProxy") ∈
        (applyChanges envAllWritesFail stDenied).2 ∧
      (∀ k, Event.settingWrite Scope.incognito_persistent k ∉
        (applyChanges envAllWritesFail stDenied).2) ∧
      Event.windowClose ∉ (applyChanges envAllWritesFail stDenied).2) :=
  ⟨rfl, Or.inl rfl, c1_regular_failure_halts envAllWritesFail stDenied rfl (Or.inl rfl)⟩

/-! ## Decimal round trip: `parseInt` inverts the number-to-string coercion -/

/-- Character facts for decimal digit characters. -/
theorem digitCharOf_facts {d : Nat} (hd : d < 10) :
    isDecDigit (digitCharOf d) = true ∧ decDigitVal (digitCharOf d) = d := by
  interval_cases d <;> exact ⟨rfl, rfl⟩

/-- A decimal digit character's code point is between 48 and 57. -/
theorem isDecDigit_bounds {c : Char} (h : isDecDigit c = true) :
    48 ≤ c.toNat ∧ c.toNat ≤ 57 := by
  simpa [isDecDigit] using h

/-- Decimal digit characters are not JavaScript whitespace. -/
theorem jsWhitespace_false_of_digit {c : Char} (h : isDecDigit c = true) :
    jsWhitespace c = false := by
  obtain ⟨hl, hr⟩ := isDecDigit_bounds h
  rw [Bool.eq_false_iff]
  intro hw
  simp only [jsWhitespace, Bool.or_eq_true, beq_iff_eq, Bool.and_eq_true,
    decide_eq_true_eq] at hw
  omega

/-- Line terminators are whitespace. -/
theorem jsWhitespace_of_lineTerm {c : Char} (h : isLineTerm c = true) :
    jsWhitespace c = true := by
  simp only [isLineTerm, Bool.or_eq_true, beq_iff_eq] at h
  simp only [jsWhitespace, Bool.or_eq_true, beq_iff_eq, Bool.and_eq_true,
    decide_eq_true_eq]
  omega

/-- A list all of whose elements satisfy the predicate is its own
`takeWhile`. -/
theorem takeWhileAll {p : Char → Bool} :
    ∀ l : List Char, (∀ c ∈ l, p c = true) → l.takeWhile p = l := by
  intro l
  induction l with
  | nil => intro; rfl
  | cons c cs ih =>
    intro h
    rw [List.takeWhile_cons, if_pos (h c (List.mem_cons_self c cs)),
      ih fun x hx => h x (List.mem_cons_of_mem c hx)]

/-- Folding the digit-value step over rendered digit characters computes
`Nat.ofDigits`. -/
theorem foldrDigits (ds : List Nat) (h : ∀ d ∈ ds, d < 10) :
    (ds.map digitCharOf).foldr (fun c a => 10 * a + decDigitVal c) 0 =
      Nat.ofDigits 10 ds := by
  induction ds with
  | nil => simp [Nat.ofDigits_nil]
  | cons d ds ih =>
    simp only [List.map_cons, List.foldr_cons, Nat.ofDigits_cons]
    rw [ih fun x hx => h x (List.mem_cons_of_mem d hx),
      (digitCharOf_facts (h d (List.mem_cons_self d ds))).2]
    omega

/-- Every character of a rendered natural number is a decimal digit. -/
theorem natToDecChars_digit (n : Nat) : ∀ c ∈ natToDecChars n, isDecDigit c = true := by
  intro c hc
  unfold natToDecChars at hc
  split at hc
  · simp only [List.mem_singleton] at hc
    subst hc
    rfl
  · rw [List.mem_reverse] at hc
    obtain ⟨d, hd, rfl⟩ := List.mem_map.mp hc
    exact (digitCharOf_facts (Nat.digits_lt_base (by norm_num) hd)).1

/-- A rendered natural number is never the empty string. -/
theorem natToDecChars_ne_nil (n : Nat) : natToDecChars n ≠ [] := by
  unfold natToDecChars
  split
  · simp
  · simp_all [List.reverse_eq_nil_iff, List.map_eq_nil_iff,
      Nat.digits_ne_nil_iff_ne_zero]

/-- Parsing the rendered digits of a natural number recovers it. -/
theorem parseDigitsVal_natToDecChars (n : Nat) :
    parseDigitsVal (natToDecChars n) = n := by
  by_cases h0 : n = 0
  · subst h0; rfl
  · unfold natToDecChars
    rw [if_neg h0]
    unfold parseDigitsVal
    rw [List.foldl_reverse]
    rw [foldrDigits _ fun d hd => Nat.digits_lt_base (by norm_num) hd]
    exact Nat.ofDigits_digits 10 n

/-- `parseInt` applied to a non-empty all-digit string parses all of it. -/
theorem parseInt10_digits (c : Char) (rest : List Char)
    (hdig : ∀ x ∈ c :: rest, isDecDigit x = true) :
    parseInt10 ⟨c :: rest⟩ = some ((parseDigitsVal (c :: rest) : Nat) : Int) := by
  have hcdig := hdig c (List.mem_cons_self c rest)
  have hcb := isDecDigit_bounds hcdig
  have hcdash : c ≠ '-' := by
    intro h; rw [h] at hcb; exact absurd hcb (by decide)
  have hcplus : c ≠ '+' := by
    intro h; rw [h] at hcb; exact absurd hcb (by decide)
  have h1 : List.dropWhile jsWhitespace (c :: rest) = c :: rest := by
    rw [List.dropWhile_cons, if_neg (by simp [jsWhitespace_false_of_digit hcdig])]
  simp only [parseInt10, h1]
  rw [if_neg hcdash, if_neg hcplus, takeWhileAll _ hdig]
  simp

/-- JavaScript `parseInt` at base 10 inverts the number-to-string coercion
used when a port number is written into its field. -/
theorem parseInt10_intToDecString (i : Int) :
    parseInt10 (intToDecString i) = some i := by
  unfold intToDecString
  split_ifs with hneg
  · have hdigits := natToDecChars_digit i.natAbs
    have hne := natToDecChars_ne_nil i.natAbs
    have h1 : List.dropWhile jsWhitespace ('-' :: natToDecChars i.natAbs) =
        '-' :: natToDecChars i.natAbs := by
      rw [List.dropWhile_cons, if_neg (by decide)]
    simp only [parseInt10, h1]
    rw [if_pos trivial, takeWhileAll _ hdigits,
      if_neg (by rw [List.isEmpty_iff]; exact hne),
      parseDigitsVal_natToDecChars]
    congr 1
    omega
  · obtain ⟨c, rest, hc⟩ := List.exists_cons_of_ne_nil (natToDecChars_ne_nil i.toNat)
    have hdig : ∀ x ∈ c :: rest, isDecDigit x = true := hc ▸ natToDecChars_digit i.toNat
    have hmk : (⟨natToDecChars i.toNat⟩ : String) = ⟨c :: rest⟩ := by rw [hc]
    rw [hmk, parseInt10_digits c rest hdig, ← hc, parseDigitsVal_natToDecChars]
    congr 1
    omega

/-! ## The bypass-list split inverts the join -/

/-- A whitespace run is empty when the first character is not whitespace. -/
theorem wsRun_cons_false {s : List Char} {q : Nat} {c : Char}
    (hc : s[q]? = some c) (hw : jsWhitespace c = false) : wsRun s q = 0 := by
  obtain ⟨hlt, hval⟩ := List.getElem?_eq_some_iff.mp hc
  rw [wsRun, List.drop_eq_getElem_cons hlt, hval]
  simp [wsRunAux, hw]

/-- A whitespace run extends over a whitespace head character. -/
theorem wsRun_cons_true {s : List Char} {q : Nat} {c : Char}
    (hc : s[q]? = some c) (hw : jsWhitespace c = true) :
    wsRun s q = wsRun s (q + 1) + 1 := by
  obtain ⟨hlt, hval⟩ := List.getElem?_eq_some_iff.mp hc
  rw [wsRun, List.drop_eq_getElem_cons hlt, hval]
  simp [wsRunAux, hw, wsRun]

/-- At a non-whitespace, non-comma character with a non-line-terminator
predecessor, the separator does not match. -/
theorem matchAt_none_plain {s : List Char} {q : Nat} {c : Char}
    (hq : 0 < q) (hc : s[q]? = some c) (hws : jsWhitespace c = false) (hcm : c ≠ ',')
    (hprev : ∀ d, s[q - 1]? = some d → isLineTerm d = false) :
    matchAt s q = none := by
  rw [matchAt, wsRun_cons_false hc hws]
  show tryBody s q = none
  have hqlen : q < s.length := (List.getElem?_eq_some_iff.mp hc).1
  have hm : q - 1 < s.length := by omega
  have hp : s[q - 1]? = some (s.get ⟨q - 1, hm⟩) := List.getElem?_eq_getElem hm
  unfold tryBody
  rw [if_neg (by rw [hc]; simp [hcm]), if_neg]
  rintro (h | h)
  · omega
  · rw [hp] at h
    simp only at h
    rw [hprev _ hp] at h
    cases h

/-- At a comma followed by a single space and a non-whitespace character,
the separator matches those two characters. -/
theorem matchAt_comma {s : List Char} {q : Nat} {c : Char}
    (hc : s[q]? = some ',') (hs : s[q + 1]? = some ' ')
    (hn : s[q + 2]? = some c) (hw : jsWhitespace c = false) :
    matchAt s q = some (q + 2) := by
  rw [matchAt, wsRun_cons_false hc (by decide)]
  show tryBody s q = _
  unfold tryBody
  rw [if_pos hc, wsRun_cons_true hs (by decide), wsRun_cons_false hn hw]

/-- At position zero on a non-whitespace, non-comma character, the separator
matches the empty string. -/
theorem matchAt_zero {s : List Char} {c : Char} (hc : s[0]? = some c)
    (hw : jsWhitespace c = false) (hcm : c ≠ ',') : matchAt s 0 = some 0 := by
  rw [matchAt, wsRun_cons_false hc hw]
  show tryBody s 0 = _
  unfold tryBody
  rw [if_neg (by rw [hc]; simp [hcm]), if_pos (Or.inl rfl), wsRun_cons_false hc hw]

/-- Scanning over positions where the separator does not match advances the
position one character at a time. -/
theorem splitLoop_scan_none (s : List Char) :
    ∀ (n p q fuel : Nat), (∀ j, j < n → matchAt s (q + j) = none) →
    q + n ≤ s.length →
    splitLoop s p q (fuel + n) = splitLoop s p (q + n) fuel := by
  intro n
  induction n with
  | zero => intro p q fuel _ _; rfl
  | succ n ih =>
    intro p q fuel hnone hlen
    have h0 := hnone 0 (by omega)
    rw [Nat.add_zero] at h0
    rw [show fuel + (n + 1) = (fuel + n) + 1 from rfl]
    simp only [splitLoop, if_neg (show ¬s.length ≤ q by omega), h0]
    rw [ih p (q + 1) fuel
      (fun j hj => by
        have := hnone (j + 1) (by omega)
        rwa [show q + (j + 1) = q + 1 + j from by omega] at this)
      (by omega)]
    rw [show q + 1 + n = q + (n + 1) from by omega]

/-- The characters of `joinToks l` after a token. -/
def joinTail : List (List Char) → List Char
  | [] => []
  | rest@(_ :: _) => ',' :: ' ' :: joinToks rest

/-- `joinToks` of a cons splits into the token and the tail. -/
theorem joinToks_cons (t : List Char) (rest : List (List Char)) :
    joinToks (t :: rest) = t ++ joinTail rest := by
  cases rest with
  | nil => simp [joinToks, joinTail]
  | cons t2 rest2 => simp [joinToks, joinTail]

/-- Starting at the beginning of a token (position 0 or just after a
separator's space), the split loop emits exactly the remaining tokens. -/
theorem splitLoop_scanToks (s : List Char) :
    ∀ (l : List (List Char)) (p fuel : Nat),
    l ≠ [] →
    (∀ t ∈ l, t ≠ [] ∧ ∀ c ∈ t, jsWhitespace c = false ∧ c ≠ ',') →
    (p = 0 ∨ s[p - 1]? = some ' ') →
    s.drop p = joinToks l →
    s.length + 1 - p ≤ fuel →
    splitLoop s p p fuel = l := by
  intro l
  induction l with
  | nil => intro p fuel hne; exact absurd rfl hne
  | cons t rest ih =>
    intro p fuel _ hplain hstart hdrop hfuel
    obtain ⟨htne, htplain⟩ := hplain t (List.mem_cons_self t rest)
    rw [joinToks_cons] at hdrop
    have hdl : s.length - p = t.length + (joinTail rest).length := by
      have hcl := congrArg List.length hdrop
      simpa [List.length_drop, List.length_append] using hcl
    have htl : 1 ≤ t.length := by
      cases t with
      | nil => exact absurd rfl htne
      | cons _ _ => simp
    have hplen : p + t.length + (joinTail rest).length = s.length := by omega
    have hchar : ∀ j, j < t.length → s[p + j]? = t[j]? := by
      intro j hj
      rw [show s[p + j]? = (s.drop p)[j]? from (List.getElem?_drop s p j).symm, hdrop,
        List.getElem?_append, if_pos hj]
    cases fuel with
    | zero => omega
    | succ f =>
      obtain ⟨c0, t', ht⟩ := List.exists_cons_of_ne_nil htne
      have hc0 : s[p]? = some c0 := by
        have h0 := hchar 0 (by omega)
        rw [Nat.add_zero] at h0
        rw [h0, ht]
        simp
      have hc0plain := htplain c0 (ht ▸ List.mem_cons_self c0 t')
      have hstep1 : splitLoop s p p (f + 1) = splitLoop s p (p + 1) f := by
        simp only [splitLoop, if_neg (show ¬s.length ≤ p by omega)]
        rcases Nat.eq_zero_or_pos p with hp0 | hppos
        · subst hp0
          rw [matchAt_zero hc0 hc0plain.1 hc0plain.2]
          simp
        · have hsp : s[p - 1]? = some ' ' := by
            rcases hstart with h | h
            · omega
            · exact h
          rw [matchAt_none_plain hppos hc0 hc0plain.1 hc0plain.2
            (fun d hd => by rw [hsp] at hd; cases hd; rfl)]
      have hscan := splitLoop_scan_none s (t.length - 1) p (p + 1) (f - (t.length - 1))
        (fun j hj => by
          have hj1 : j + 1 < t.length := by omega
          have hcur : s[p + 1 + j]? = some (t.get ⟨j + 1, hj1⟩) := by
            have hx := hchar (j + 1) hj1
            rw [show p + (j + 1) = p + 1 + j from by omega] at hx
            rw [hx]
            exact List.getElem?_eq_getElem hj1
          have hcp := htplain _ (List.getElem_mem hj1)
          have hjp : j < t.length := by omega
          have hprevv : s[p + 1 + j - 1]? = some (t.get ⟨j, hjp⟩) := by
            have hx := hchar j hjp
            rw [show p + j = p + 1 + j - 1 from by omega] at hx
            rw [hx]
            exact List.getElem?_eq_getElem hjp
          have hpp := htplain _ (List.getElem_mem hjp)
          exact matchAt_none_plain (by omega) hcur hcp.1 hcp.2
            (fun d hd => by
              rw [hprevv] at hd
              cases hd
              rw [Bool.eq_false_iff]
              intro hterm
              have hws : jsWhitespace t[j] = true := jsWhitespace_of_lineTerm hterm
              rw [hpp.1] at hws
              cases hws))
        (by omega)
      rw [show f - (t.length - 1) + (t.length - 1) = f from by omega,
        show p + 1 + (t.length - 1) = p + t.length from by omega] at hscan
      rw [hstep1, hscan]
      cases rest with
      | nil =>
        simp only [joinTail, List.length_nil] at hdl
        have hf2 : ∃ f2, f - (t.length - 1) = f2 + 1 := ⟨f - (t.length - 1) - 1, by omega⟩
        obtain ⟨f2, hf2'⟩ := hf2
        rw [hf2']
        simp only [splitLoop, if_pos (show s.length ≤ p + t.length by omega)]
        rw [hdrop]
        simp [joinTail]
      | cons t2 rest2 =>
        have hJ : joinTail (t2 :: rest2) = ',' :: ' ' :: joinToks (t2 :: rest2) := rfl
        have hJl : (joinTail (t2 :: rest2)).length = (joinToks (t2 :: rest2)).length + 2 := by
          rw [hJ]
          simp
        have hgetTail : ∀ j, s[p + t.length + j]? = (joinTail (t2 :: rest2))[j]? := by
          intro j
          rw [show p + t.length + j = p + (t.length + j) from by omega,
            ← List.getElem?_drop, hdrop, List.getElem?_append_right (by omega)]
          congr 1
          omega
        have hcomma : s[p + t.length]? = some ',' := by
          have hx := hgetTail 0
          rw [Nat.add_zero] at hx
          rw [hx, hJ]
          simp
        have hspace : s[p + t.length + 1]? = some ' ' := by
          rw [hgetTail 1, hJ]
          simp
        obtain ⟨hT2ne, hT2plain⟩ := hplain t2 (by simp)
        obtain ⟨c2, t2', ht2⟩ := List.exists_cons_of_ne_nil hT2ne
        have hc2 : s[p + t.length + 2]? = some c2 := by
          rw [hgetTail 2, hJ]
          have h2 : (',' :: ' ' :: joinToks (t2 :: rest2))[2]? =
              (joinToks (t2 :: rest2))[0]? := by
            simp
          rw [h2, joinToks_cons, List.getElem?_append, if_pos (by rw [ht2]; simp), ht2]
          simp
        have hc2plain := hT2plain c2 (ht2 ▸ List.mem_cons_self c2 t2')
        have hmatch := matchAt_comma hcomma hspace hc2 hc2plain.1
        have hlen3 : s.length = p + t.length + 2 + (joinToks (t2 :: rest2)).length := by
          omega
        have hf3 : ∃ f3, f - (t.length - 1) = f3 + 1 :=
          ⟨f - (t.length - 1) - 1, by omega⟩
        obtain ⟨f3, hf3'⟩ := hf3
        rw [hf3']
        simp only [splitLoop, if_neg (show ¬s.length ≤ p + t.length by omega), hmatch]
        rw [if_neg (show ¬(p + t.length + 2 = p) by omega)]
        have hpush : (s.drop p).take (p + t.length - p) = t := by
          rw [hdrop, show p + t.length - p = t.length from by omega, List.take_left]
        rw [hpush]
        congr 1
        apply ih (p + t.length + 2) f3
        · simp
        · intro u hu
          exact hplain u (List.mem_cons_of_mem _ hu)
        · right
          rw [show p + t.length + 2 - 1 = p + t.length + 1 from by omega]
          exact hspace
        · have hdd : s.drop (p + t.length + 2) = (s.drop p).drop (t.length + 2) := by
            rw [List.drop_drop]
            congr 1
          rw [hdd, hdrop, hJ,
            show t ++ ',' :: ' ' :: joinToks (t2 :: rest2) =
              (t ++ [',', ' ']) ++ joinToks (t2 :: rest2) from by simp,
            List.drop_left' (by simp)]
        · omega

/-- The ECMAScript split of a comma-space join returns the original tokens,
for non-empty tokens free of whitespace and commas. -/
theorem jsSplitChars_joinToks (l : List (List Char))
    (h : ∀ t ∈ l, t ≠ [] ∧ ∀ c ∈ t, jsWhitespace c = false ∧ c ≠ ',') :
    jsSplitChars (joinToks l) = l := by
  cases l with
  | nil => decide
  | cons t rest =>
    have htne := (h t (List.mem_cons_self t rest)).1
    have hs : joinToks (t :: rest) ≠ [] := by
      rw [joinToks_cons, Ne, List.append_eq_nil]
      rintro ⟨h1, _⟩
      exact htne h1
    unfold jsSplitChars
    rw [if_neg (by rw [List.length_eq_zero]; exact hs)]
    exact splitLoop_scanToks (joinToks (t :: rest)) (t :: rest) 0 _
      (by simp) h (Or.inl rfl) (List.drop_zero _) (by omega)

/-- String-level version: the bypass-list getter inverts the setter on lists
of plain hostname patterns. -/
theorem jsSplitBypass_joinBypass (l : List String)
    (h : ∀ t ∈ l, t ≠ "" ∧ ∀ c ∈ t.data, jsWhitespace c = false ∧ c ≠ ',') :
    jsSplitBypass (joinBypass l) = l := by
  unfold jsSplitBypass joinBypass
  have hchars : ∀ t ∈ l.map String.data,
      t ≠ [] ∧ ∀ c ∈ t, jsWhitespace c = false ∧ c ≠ ',' := by
    intro t ht
    obtain ⟨u, hu, rfl⟩ := List.mem_map.mp ht
    obtain ⟨h1, h2⟩ := h u hu
    refine ⟨?_, h2⟩
    intro hnil
    exact h1 (by rw [← show (⟨u.data⟩ : String) = u from rfl, hnil])
  have hd : (⟨joinToks (l.map String.data)⟩ : String).data =
      joinToks (l.map String.data) := rfl
  rw [hd, jsSplitChars_joinToks (l.map String.data) hchars, List.map_map]
  have hid : ∀ x : String, (⟨x.data⟩ : String) = x := fun x => rfl
  simp only [Function.comp_def, hid, List.map_id, List.map_id']

/-- Unpacking the plain-pattern check. -/
theorem plainPattern_spec {t : String} (h : plainPattern t = true) :
    t ≠ "" ∧ ∀ c ∈ t.data, jsWhitespace c = false ∧ c ≠ ',' := by
  simp only [plainPattern, Bool.and_eq_true, decide_eq_true_eq, List.all_eq_true,
    Bool.not_eq_true'] at h
  exact ⟨h.1, fun c hc => (h.2 c hc).imp id id⟩

/-! ## Field-accessor commutation lemmas -/

@[simp]
theorem setProxyImpl_activeGroup (fs : FormState) (k : ProxyKind) (d : Option ProxyServer) :
    (setProxyImpl fs k d).activeGroup = fs.activeGroup := by
  cases d <;> rfl

@[simp]
theorem setProxyImpl_autoconfigURL (fs : FormState) (k : ProxyKind) (d : Option ProxyServer) :
    (setProxyImpl fs k d).autoconfigURL = fs.autoconfigURL := by
  cases d <;> rfl

@[simp]
theorem setProxyImpl_autoconfigData (fs : FormState) (k : ProxyKind) (d : Option ProxyServer) :
    (setProxyImpl fs k d).autoconfigData = fs.autoconfigData := by
  cases d <;> rfl

@[simp]
theorem setProxyImpl_bypassField (fs : FormState) (k : ProxyKind) (d : Option ProxyServer) :
    (setProxyImpl fs k d).bypassField = fs.bypassField := by
  cases d <;> rfl

@[simp]
theorem setProxyImpl_singleProxyChecked (fs : FormState) (k : ProxyKind)
    (d : Option ProxyServer) :
    (setProxyImpl fs k d).singleProxyChecked = fs.singleProxyChecked := by
  cases d <;> rfl

@[simp]
theorem setProxyImpl_restrictRtcChecked (fs : FormState) (k : ProxyKind)
    (d : Option ProxyServer) :
    (setProxyImpl fs k d).restrictRtcChecked = fs.restrictRtcChecked := by
  cases d <;> rfl

@[simp]
theorem singleProxySet_activeGroup (fs : FormState) (d : Option ProxyServer) :
    (singleProxySet fs d).activeGroup = fs.activeGroup := by
  cases d <;> simp [singleProxySet]

@[simp]
theorem singleProxySet_autoconfigURL (fs : FormState) (d : Option ProxyServer) :
    (singleProxySet fs d).autoconfigURL = fs.autoconfigURL := by
  cases d <;> simp [singleProxySet]

@[simp]
theorem singleProxySet_autoconfigData (fs : FormState) (d : Option ProxyServer) :
    (singleProxySet fs d).autoconfigData = fs.autoconfigData := by
  cases d <;> simp [singleProxySet]

@[simp]
theorem singleProxySet_bypassField (fs : FormState) (d : Option ProxyServer) :
    (singleProxySet fs d).bypassField = fs.bypassField := by
  cases d <;> simp [singleProxySet]

@[simp]
theorem singleProxySet_restrictRtcChecked (fs : FormState) (d : Option ProxyServer) :
    (singleProxySet fs d).restrictRtcChecked = fs.restrictRtcChecked := by
  cases d <;> simp [singleProxySet]

@[simp]
theorem singleProxySet_singleProxyChecked (fs : FormState) (d : Option ProxyServer) :
    (singleProxySet fs d).singleProxyChecked = d.isSome := by
  cases d <;> simp [singleProxySet]

/-- Reading a triple back after writing it recovers it, provided the record
was fully populated or absent. -/
theorem getProxyImpl_setProxyImpl_same (fs : FormState) (k : ProxyKind)
    (d : Option ProxyServer) (hd : validServerOpt d = true) :
    getProxyImpl (setProxyImpl fs k d) k = d := by
  cases d with
  | none =>
    simp only [setProxyImpl, getProxyImpl, Function.update_same]
    rw [show parseInt10 "" = none from rfl]
  | some p =>
    simp only [validServerOpt, validServer, Bool.and_eq_true, decide_eq_true_eq] at hd
    obtain ⟨⟨hs, hh⟩, hp⟩ := hd
    simp only [setProxyImpl, getProxyImpl, Function.update_same]
    rw [parseInt10_intToDecString]
    dsimp only
    rw [if_pos ⟨hs, hh, hp⟩]

/-- Writing one triple leaves the others unchanged. -/
theorem getProxyImpl_setProxyImpl_other (fs : FormState) (k k' : ProxyKind)
    (d : Option ProxyServer) (h : k ≠ k') :
    getProxyImpl (setProxyImpl fs k' d) k = getProxyImpl fs k := by
  cases d <;> simp [setProxyImpl, getProxyImpl, Function.update_noteq h]

/-- The single-proxy setter with no record leaves the triples unchanged. -/
theorem getProxyImpl_singleProxySet_none (fs : FormState) (k : ProxyKind) :
    getProxyImpl (singleProxySet fs none) k = getProxyImpl fs k := rfl

/-- The single-proxy setter with a record writes the Http triple. -/
theorem getProxyImpl_singleProxySet_some (fs : FormState) (sp : ProxyServer)
    (hv : validServer sp = true) :
    getProxyImpl (singleProxySet fs (some sp)) ProxyKind.Http = some sp := by
  simp only [singleProxySet]
  exact getProxyImpl_setProxyImpl_same _ _ (some sp)
    (show validServerOpt (some sp) = true from hv)

/-- A renderable triple is in particular valid, also under the optional
lift. -/
theorem validServerOpt_of_renderable {d : Option ProxyServer}
    (h : serverOkOpt renderableServer d = true) : validServerOpt d = true := by
  cases d with
  | none => rfl
  | some p =>
    simp only [serverOkOpt, renderableServer, Bool.and_eq_true] at h
    exact h.1

/-- The restriction flag round-trips over the two enum values. -/
theorem restrictRtc_round_trip (fs : FormState) (r : String)
    (hr : r = defaultValue ∨ r = restrictValue) :
    restrictRtcGet (restrictRtcSet fs r) = r := by
  rcases hr with rfl | rfl
  · simp only [restrictRtcGet, restrictRtcSet]
    rw [if_neg (by decide)]
  · simp only [restrictRtcGet, restrictRtcSet]
    rw [if_pos (by decide)]

@[simp]
theorem getProxyImpl_bypassListSet (fs : FormState) (d : Option (List String)) (k : ProxyKind) :
    getProxyImpl (bypassListSet fs d) k = getProxyImpl fs k := rfl

@[simp]
theorem getProxyImpl_restrictRtcSet (fs : FormState) (r : String) (k : ProxyKind) :
    getProxyImpl (restrictRtcSet fs r) k = getProxyImpl fs k := rfl

@[simp]
theorem bypassListSet_activeGroup (fs : FormState) (d : Option (List String)) :
    (bypassListSet fs d).activeGroup = fs.activeGroup := rfl

@[simp]
theorem bypassListSet_autoconfigURL (fs : FormState) (d : Option (List String)) :
    (bypassListSet fs d).autoconfigURL = fs.autoconfigURL := rfl

@[simp]
theorem bypassListSet_autoconfigData (fs : FormState) (d : Option (List String)) :
    (bypassListSet fs d).autoconfigData = fs.autoconfigData := rfl

@[simp]
theorem bypassListSet_singleProxyChecked (fs : FormState) (d : Option (List String)) :
    (bypassListSet fs d).singleProxyChecked = fs.singleProxyChecked := rfl

@[simp]
theorem bypassListSet_bypassField (fs : FormState) (d : Option (List String)) :
    (bypassListSet fs d).bypassField = joinBypass (d.getD []) := rfl

@[simp]
theorem restrictRtcSet_activeGroup (fs : FormState) (r : String) :
    (restrictRtcSet fs r).activeGroup = fs.activeGroup := rfl

@[simp]
theorem restrictRtcSet_autoconfigURL (fs : FormState) (r : String) :
    (restrictRtcSet fs r).autoconfigURL = fs.autoconfigURL := rfl

@[simp]
theorem restrictRtcSet_autoconfigData (fs : FormState) (r : String) :
    (restrictRtcSet fs r).autoconfigData = fs.autoconfigData := rfl

@[simp]
theorem restrictRtcSet_singleProxyChecked (fs : FormState) (r : String) :
    (restrictRtcSet fs r).singleProxyChecked = fs.singleProxyChecked := rfl

@[simp]
theorem restrictRtcSet_bypassField (fs : FormState) (r : String) :
    (restrictRtcSet fs r).bypassField = fs.bypassField := rfl

/-- C2 counterexample: a well-formed (by the claim's own criterion) model
whose PAC config carries only inline data does not round-trip on a fresh
form: render never writes the inline-data field, so extraction degrades the
model to auto-detect. -/
theorem c2_pac_data_not_round_trip :
    wellFormedClaimed pacDataProfile = true ∧
    extractProfile (recalcFormValues pacDataProfile emptyFormState).1 ≠ pacDataProfile := by
  decide

/-- C2 (amended): rendering a well-formed model and extracting the fields
again is the identity, provided the model's PAC config (if any) uses a
non-empty remote url rather than inline data, its proxy triples keep their
ports in the double-exact safe-integer range (for larger magnitudes JS
renders the port in exponential notation or rounds it, and the triple does
not round-trip), and, for auto-detect models, the form's inline-data field
is empty when rendering (render never clears that field). -/
theorem c2_render_extract_round_trip (m : ProfileConfig) (fs : FormState)
    (hwf : wellFormedRoundTrip m = true)
    (hfresh : ∀ c, m.proxy = some c → c.mode = Mode.auto_detect → fs.autoconfigData = "") :
    extractProfile (recalcFormValues m fs).1 = m := by
  obtain ⟨proxy, rtc⟩ := m
  cases proxy with
  | none => simp [wellFormedRoundTrip, wfProfile] at hwf
  | some c =>
    cases rtc with
    | none => simp [wellFormedRoundTrip, wfProfile] at hwf
    | some r =>
      simp only [wellFormedRoundTrip, wfProfile, Bool.and_eq_true, Bool.or_eq_true,
        decide_eq_true_eq] at hwf
      obtain ⟨hr, hcfg⟩ := hwf
      obtain ⟨mode, pac, rules⟩ := c
      cases mode with
      | system =>
        simp only [wfConfig, Bool.and_eq_true, Option.isNone_iff_eq_none] at hcfg
        obtain ⟨rfl, rfl⟩ := hcfg
        simp only [recalcFormValues]
        rw [if_neg (by decide)]
        unfold extractProfile
        rw [restrictRtc_round_trip _ r hr]
        simp [generateProxyConfig, groupOfMode, bypassListSet, restrictRtcSet]
      | direct =>
        simp only [wfConfig, Bool.and_eq_true, Option.isNone_iff_eq_none] at hcfg
        obtain ⟨rfl, rfl⟩ := hcfg
        simp only [recalcFormValues]
        rw [if_neg (by decide)]
        unfold extractProfile
        rw [restrictRtc_round_trip _ r hr]
        simp [generateProxyConfig, groupOfMode, bypassListSet, restrictRtcSet]
      | auto_detect =>
        simp only [wfConfig, Bool.and_eq_true, Option.isNone_iff_eq_none] at hcfg
        obtain ⟨rfl, rfl⟩ := hcfg
        have hdata : fs.autoconfigData = "" := hfresh _ rfl rfl
        simp only [recalcFormValues]
        rw [if_pos (by decide)]
        unfold extractProfile
        rw [restrictRtc_round_trip _ r hr]
        simp [generateProxyConfig, groupOfMode, bypassListSet, restrictRtcSet, hdata]
      | pac_script =>
        simp only [wfConfig, Bool.and_eq_true, Option.isNone_iff_eq_none] at hcfg
        obtain ⟨rfl, hpac⟩ := hcfg
        cases pac with
        | none => exact absurd hpac (by simp)
        | some ps =>
          obtain ⟨url, dat, mand⟩ := ps
          simp only [wfPacRoundTrip] at hpac
          cases url with
          | none => exact absurd hpac (by cases dat <;> simp)
          | some u =>
            cases dat with
            | some d => exact absurd hpac (by simp)
            | none =>
              simp only [Bool.and_eq_true, decide_eq_true_eq] at hpac
              obtain ⟨hu, hmand⟩ := hpac
              subst hmand
              simp only [recalcFormValues]
              rw [if_neg (by decide)]
              unfold extractProfile
              rw [restrictRtc_round_trip _ r hr]
              simp [generateProxyConfig, groupOfMode, bypassListSet, restrictRtcSet, hu]
      | fixed_servers =>
        simp only [wfConfig, Bool.and_eq_true, Option.isNone_iff_eq_none] at hcfg
        obtain ⟨rfl, hrl⟩ := hcfg
        cases rules with
        | none => exact absurd hrl (by simp)
        | some rl =>
          obtain ⟨rsp, rh, rhs, rf, rfb, rbl⟩ := rl
          simp only [wfRules, Bool.and_eq_true] at hrl
          obtain ⟨hbl, hsp⟩ := hrl
          cases rbl with
          | none => exact absurd hbl (by simp)
          | some bl =>
            simp only [List.all_eq_true] at hbl
            have hplainbl : ∀ t ∈ bl, t ≠ "" ∧
                ∀ ch ∈ t.data, jsWhitespace ch = false ∧ ch ≠ ',' :=
              fun t ht => plainPattern_spec (hbl t ht)
            have hsplit := jsSplitBypass_joinBypass bl hplainbl
            cases rsp with
            | some sp =>
              simp only [Bool.and_eq_true, Option.isNone_iff_eq_none] at hsp
              obtain ⟨⟨⟨⟨hv, rfl⟩, rfl⟩, rfl⟩, rfl⟩ := hsp
              have hvv : validServer sp = true := by
                have hvr := hv
                simp only [renderableServer, Bool.and_eq_true] at hvr
                exact hvr.1
              simp only [recalcFormValues]
              rw [if_neg (by decide)]
              unfold extractProfile
              rw [restrictRtc_round_trip _ r hr]
              simp [generateProxyConfig, groupOfMode, singleProxyGet, bypassListGet,
                getProxyImpl_singleProxySet_some _ _ hvv, hsplit]
            | none =>
              simp only [Bool.and_eq_true] at hsp
              obtain ⟨⟨⟨hv1, hv2⟩, hv3⟩, hv4⟩ := hsp
              have hw1 := validServerOpt_of_renderable hv1
              have hw2 := validServerOpt_of_renderable hv2
              have hw3 := validServerOpt_of_renderable hv3
              have hw4 := validServerOpt_of_renderable hv4
              simp only [recalcFormValues]
              rw [if_neg (by decide)]
              unfold extractProfile
              rw [restrictRtc_round_trip _ r hr]
              simp [generateProxyConfig, groupOfMode, singleProxyGet, bypassListGet,
                getProxyImpl_singleProxySet_none,
                getProxyImpl_setProxyImpl_other, getProxyImpl_setProxyImpl_same,
                hw1, hw2, hw3, hw4, hsplit]

/-- C2 witness: an auto-detect model rendered into a fresh form extracts
back to itself. -/
theorem c2_render_extract_round_trip_witness :
    wellFormedRoundTrip autoProfile = true ∧
    emptyFormState.autoconfigData = "" ∧
    extractProfile (recalcFormValues autoProfile emptyFormState).1 = autoProfile :=
  ⟨by decide, rfl,
    c2_render_extract_round_trip autoProfile emptyFormState (by decide)
      (fun _ _ _ => rfl)⟩

end PFC
